import Mathlib

/-!
Shallow embedding of the zeerust Z80 emulator core (`src/z80/mod.rs`),
for checking the natural-language specification against the code.

Machine integers are modelled as `Nat` with explicit reduction `% 256`
(u8) and `% 65536` (u16).  Rust panics (out-of-bounds indexing,
`panic!`, `unimplemented!`, failed `assert!`) are modelled as `none` in
an `Option`-valued result.  Wrapping arithmetic (`wrapping_add`,
`wrapping_sub`, and release-mode overflow of `+`/`-`, which the spec's
§9 note 1 describes as the behaviour of the carry-chain increment) is
modelled with explicit `%`.

The register file (`cpu::reg`) and memory (`cpu::mem`) modules are not
part of the provided sources; they are modelled from the spec (§3,
§4.1, §4.2): sixteen 8-bit registers plus 16-bit PC and SP, the
bit-packed flag byte F with the documented bit positions, and a flat
byte array of `MEMORY_SIZE = 16384` bytes.  The `ops` enums used by
`z80/mod.rs` (the file `src/ops.rs` in the snapshot is an older
revision that lacks most variants, `Reg16::SP`, `ImmediateIndirect`
and `JumpConditional`) are likewise completed from the spec (§3, §6.3).
-/

namespace Zeerust

/-- Status flags of the flag register F (`ops::StatusFlag`). -/
inductive StatusFlag
  | Carry
  | AddSubtract
  | ParityOverflow
  | HalfCarry
  | Zero
  | Sign
deriving DecidableEq

/-- Modelled from the spec: bit position of each flag inside the packed
flag byte F (spec §3 flag table: S=7, Z=6, H=4, P/V=2, N=1, C=0). -/
def flagBit : StatusFlag → Nat
  | .Carry => 0
  | .AddSubtract => 1
  | .ParityOverflow => 2
  | .HalfCarry => 4
  | .Zero => 6
  | .Sign => 7

/-- The 8-bit registers (`ops::Reg8`): the two banks of eight bytes. -/
inductive Reg8
  | A | F | B | C | D | E | H | L
  | AP | FP | BP | CP | DP | EP | HP | LP
deriving DecidableEq

/-- The 16-bit register names used by `z80/mod.rs` (`ops::Reg16`):
register pairs, shadow pairs, and SP. -/
inductive Reg16
  | AF | BC | DE | HL
  | AFP | BCP | DEP | HLP
  | SP
deriving DecidableEq

/-- Modelled from the spec (§3, §4.2): the register file `cpu::reg::Registers`.
Sixteen byte registers for the two banks plus 16-bit PC and SP. -/
structure Registers where
  a : Nat
  f : Nat
  b : Nat
  c : Nat
  d : Nat
  e : Nat
  h : Nat
  l : Nat
  ap : Nat
  fp : Nat
  bp : Nat
  cp : Nat
  dp : Nat
  ep : Nat
  hp : Nat
  lp : Nat
  pc : Nat
  sp : Nat

/-- Modelled from the spec (§4.2): `get_reg8`. Reads mask to a byte. -/
def get_reg8 (r : Registers) : Reg8 → Nat
  | .A => r.a % 256
  | .F => r.f % 256
  | .B => r.b % 256
  | .C => r.c % 256
  | .D => r.d % 256
  | .E => r.e % 256
  | .H => r.h % 256
  | .L => r.l % 256
  | .AP => r.ap % 256
  | .FP => r.fp % 256
  | .BP => r.bp % 256
  | .CP => r.cp % 256
  | .DP => r.dp % 256
  | .EP => r.ep % 256
  | .HP => r.hp % 256
  | .LP => r.lp % 256

/-- Modelled from the spec (§4.2): `set_reg8`. Stores a byte. -/
def set_reg8 (r : Registers) (reg : Reg8) (v : Nat) : Registers :=
  match reg with
  | .A => { r with a := v % 256 }
  | .F => { r with f := v % 256 }
  | .B => { r with b := v % 256 }
  | .C => { r with c := v % 256 }
  | .D => { r with d := v % 256 }
  | .E => { r with e := v % 256 }
  | .H => { r with h := v % 256 }
  | .L => { r with l := v % 256 }
  | .AP => { r with ap := v % 256 }
  | .FP => { r with fp := v % 256 }
  | .BP => { r with bp := v % 256 }
  | .CP => { r with cp := v % 256 }
  | .DP => { r with dp := v % 256 }
  | .EP => { r with ep := v % 256 }
  | .HP => { r with hp := v % 256 }
  | .LP => { r with lp := v % 256 }

/-- Modelled from the spec (§4.2): `get_reg16`. A pair reads
big-endian-within-pair: AF is `(A <<< 8) ||| F`. SP is its own register. -/
def get_reg16 (r : Registers) : Reg16 → Nat
  | .AF => (r.a % 256) * 256 + r.f % 256
  | .BC => (r.b % 256) * 256 + r.c % 256
  | .DE => (r.d % 256) * 256 + r.e % 256
  | .HL => (r.h % 256) * 256 + r.l % 256
  | .AFP => (r.ap % 256) * 256 + r.fp % 256
  | .BCP => (r.bp % 256) * 256 + r.cp % 256
  | .DEP => (r.dp % 256) * 256 + r.ep % 256
  | .HLP => (r.hp % 256) * 256 + r.lp % 256
  | .SP => r.sp % 65536

/-- Modelled from the spec (§4.2): `set_reg16` splits symmetrically. -/
def set_reg16 (r : Registers) (reg : Reg16) (v : Nat) : Registers :=
  match reg with
  | .AF => { r with a := v / 256 % 256, f := v % 256 }
  | .BC => { r with b := v / 256 % 256, c := v % 256 }
  | .DE => { r with d := v / 256 % 256, e := v % 256 }
  | .HL => { r with h := v / 256 % 256, l := v % 256 }
  | .AFP => { r with ap := v / 256 % 256, fp := v % 256 }
  | .BCP => { r with bp := v / 256 % 256, cp := v % 256 }
  | .DEP => { r with dp := v / 256 % 256, ep := v % 256 }
  | .HLP => { r with hp := v / 256 % 256, lp := v % 256 }
  | .SP => { r with sp := v % 65536 }

/-- Modelled from the spec (§4.2): `get_pc`. -/
def get_pc (r : Registers) : Nat := r.pc % 65536

/-- Modelled from the spec (§3, §9 design notes): `get_flag` reads the
documented bit of the packed flag byte F. -/
def get_flag (r : Registers) (fl : StatusFlag) : Bool :=
  Nat.testBit r.f (flagBit fl)

/-- Modelled from the spec (§3, §9 design notes): `set_flag` sets or
clears the documented bit of the packed flag byte F. -/
def set_flag (r : Registers) (fl : StatusFlag) (b : Bool) : Registers :=
  if b then { r with f := r.f % 2 ^ 8 ||| 2 ^ flagBit fl }
  else { r with f := r.f % 2 ^ 8 &&& ((2 ^ 8 - 1) ^^^ 2 ^ flagBit fl) }

/-- Modelled from the spec (§2, §3): the memory size `cpu::mem::MEMORY_SIZE`
(16 KiB, also stated in the `Z80` doc comment in `z80/mod.rs`). -/
def MEMORY_SIZE : Nat := 16384

/-- Modelled from the spec (§3): `cpu::mem::Memory`, a flat byte array of
`MEMORY_SIZE` cells, represented as a function on addresses (cells at
indices `MEMORY_SIZE` and above are never reachable: every access
bounds-checks). -/
structure Memory where
  memory : Nat → Nat

/-- Direct indexing `memory.memory[addr as usize]` as used by
`z80/mod.rs`: a read out of bounds is a panic (`none`). -/
def mem_read8 (m : Memory) (addr : Nat) : Option Nat :=
  if addr < MEMORY_SIZE then some (m.memory addr % 256) else none

/-- Direct index assignment `memory.memory[addr as usize] = val`;
out of bounds is a panic (`none`). -/
def mem_write8 (m : Memory) (addr : Nat) (v : Nat) : Option Memory :=
  if addr < MEMORY_SIZE then
    some ⟨fun x => if x = addr then v % 256 else m.memory x⟩
  else none

/-- Little-endian 16-bit read `u16::from_le_bytes([memory[n], memory[n+1]])`
as in `get_loc16` (`z80/mod.rs` lines 469-472). -/
def mem_read16 (m : Memory) (addr : Nat) : Option Nat :=
  match mem_read8 m addr with
  | none => none
  | some lo =>
    match mem_read8 m (addr + 1) with
    | none => none
    | some hi => some (lo + 256 * hi)

/-- Little-endian 16-bit write as in `set_loc16` (`z80/mod.rs` lines
484-488): low byte at `addr`, high byte at `addr + 1`. -/
def mem_write16 (m : Memory) (addr : Nat) (v : Nat) : Option Memory :=
  match mem_write8 m addr (v % 256) with
  | none => none
  | some m1 => mem_write8 m1 (addr + 1) (v / 256 % 256)

/-- The core emulation state (`Z80` in `z80/mod.rs`).  Peripheral devices
are modelled as oracles: an installed input device is a function value
giving the byte `input()` returns; an installed output device is a
port marked `true` (its `output` effect is external to the state). -/
structure Z80 where
  registers : Registers
  memory : Memory
  isHalted : Bool
  inputDevices : Nat → Option Nat
  outputDevices : Nat → Bool

/-- An 8-bit operand location (`ops::Location8`, completed from spec §3:
`Reg | RegIndirect | Immediate | ImmediateIndirect`). -/
inductive Location8
  | Reg (r : Reg8)
  | RegIndirect (p : Reg16)
  | Immediate (v : Nat)
  | ImmediateIndirect (addr : Nat)
deriving DecidableEq

/-- A 16-bit operand location (`ops::Location16`, completed from spec §3). -/
inductive Location16
  | Reg (p : Reg16)
  | RegIndirect (p : Reg16)
  | Immediate (v : Nat)
  | ImmediateIndirect (addr : Nat)
deriving DecidableEq

/-- Jump conditions (`ops::JumpConditional`, completed from spec §4.4.8). -/
inductive JumpConditional
  | Unconditional
  | Carry
  | NoCarry
  | Zero
  | NonZero
  | ParityEven
  | ParityOdd
  | SignNegative
  | SignPositive
deriving DecidableEq

/-- Decoded instructions (`ops::Op`, completed from spec §6.3 to the
inventory dispatched by `exec_with_offset` in `z80/mod.rs`). -/
inductive Op
  | LD8 (dst src : Location8)
  | LD16 (dst src : Location16)
  | PUSH (src : Location16)
  | POP (dst : Location16)
  | ADD8 (dst src : Location8)
  | ADC (dst src : Location8)
  | INC (dst : Location8)
  | SUB8 (dst src : Location8)
  | SBC (dst src : Location8)
  | DEC (dst : Location8)
  | CP (src : Location8)
  | AND (src : Location8)
  | OR (src : Location8)
  | XOR (src : Location8)
  | DAA
  | CPL
  | NEG
  | CCF
  | SCF
  | NOP
  | HALT
  | RLCA
  | RLA
  | RRCA
  | RRA
  | RLC (loc : Location8)
  | RL (loc : Location8)
  | RRC (loc : Location8)
  | RR (loc : Location8)
  | SRL (loc : Location8)
  | SLA (loc : Location8)
  | SRA (loc : Location8)
  | RLD
  | RRD
  | BIT (b : Nat) (loc : Location8)
  | SET (b : Nat) (loc : Location8)
  | RES (b : Nat) (loc : Location8)
  | IN (dst port : Location8)
  | OUT (src port : Location8)
  | JP (cond : JumpConditional) (addr : Location16)
  | JR (cond : JumpConditional) (offset : Int)
  | DJNZ (offset : Int)
  | CALL (cond : JumpConditional) (addr : Nat)
  | RET (cond : JumpConditional)
deriving DecidableEq

/-- The constant `Z80::ONE_IMM`. -/
def ONE_IMM : Location8 := .Immediate 1

/-- The constant `Z80::ACC` (the accumulator location). -/
def ACC : Location8 := .Reg .A

/-- The constant `Z80::HL_INDIRECT`. -/
def HL_INDIRECT : Location8 := .RegIndirect .HL

/-- Operand read `get_loc8` (`z80/mod.rs` lines 436-446).  Memory is
indexed directly, without masking; out of bounds is a panic (`none`). -/
def get_loc8 (z : Z80) : Location8 → Option Nat
  | .Immediate v => some (v % 256)
  | .Reg reg => some (get_reg8 z.registers reg)
  | .RegIndirect reg => mem_read8 z.memory (get_reg16 z.registers reg)
  | .ImmediateIndirect addr => mem_read8 z.memory addr

/-- Operand write `set_loc8` (`z80/mod.rs` lines 448-460).  Writing an
`Immediate` location is a panic; memory is indexed directly. -/
def set_loc8 (z : Z80) (loc : Location8) (v : Nat) : Option Z80 :=
  match loc with
  | .Immediate _ => none
  | .Reg reg => some { z with registers := set_reg8 z.registers reg v }
  | .ImmediateIndirect addr =>
    match mem_write8 z.memory addr v with
    | none => none
    | some m => some { z with memory := m }
  | .RegIndirect reg =>
    match mem_write8 z.memory (get_reg16 z.registers reg) v with
    | none => none
    | some m => some { z with memory := m }

/-- Operand read `get_loc16` (`z80/mod.rs` lines 462-474).  The
`RegIndirect` arm delegates to `ImmediateIndirect` at the pair's value. -/
def get_loc16 (z : Z80) : Location16 → Option Nat
  | .Reg reg => some (get_reg16 z.registers reg)
  | .RegIndirect reg => mem_read16 z.memory (get_reg16 z.registers reg)
  | .Immediate n => some (n % 65536)
  | .ImmediateIndirect n => mem_read16 z.memory n

/-- Operand write `set_loc16` (`z80/mod.rs` lines 476-490). -/
def set_loc16 (z : Z80) (loc : Location16) (v : Nat) : Option Z80 :=
  match loc with
  | .Immediate _ => none
  | .Reg reg => some { z with registers := set_reg16 z.registers reg v }
  | .RegIndirect reg =>
    match mem_write16 z.memory (get_reg16 z.registers reg) v with
    | none => none
    | some m => some { z with memory := m }
  | .ImmediateIndirect n =>
    match mem_write16 z.memory n v with
    | none => none
    | some m => some { z with memory := m }

/-- `Z80::is_borrow` (`z80/mod.rs` lines 116-119): compare the low
`bit + 1` bits; `x &&& ((1 <<< (bit+1)) - 1)` is `x % 2 ^ (bit+1)`. -/
def is_borrow (min sub bit : Nat) : Bool :=
  decide (min % 2 ^ (bit + 1) < sub % 2 ^ (bit + 1))

/-- `Z80::subtract` (`z80/mod.rs` lines 121-157).  The carry-chain
increment `v2 += 1` wraps (spec §9 note 1); `overflowing_sub` on bytes
is `(v1 + 256 - v2) % 256` with overflow bit `v1 < v2`. -/
def subtract (z : Z80) (dst src : Location8)
    (include_carry store_result : Bool) : Option Z80 :=
  match get_loc8 z dst with
  | none => none
  | some v1 =>
  match get_loc8 z src with
  | none => none
  | some v2a =>
  let v2 := if include_carry && get_flag z.registers .Carry
            then (v2a + 1) % 256 else v2a
  let sum := (v1 + 256 - v2) % 256
  let ov : Bool := decide (v1 < v2)
  match (if store_result then set_loc8 z dst sum else some z) with
  | none => none
  | some z1 =>
    let r := set_flag z1.registers .Carry (is_borrow v1 v2 6)
    let r := set_flag r .AddSubtract true
    let r := set_flag r .ParityOverflow ov
    let r := set_flag r .HalfCarry (is_borrow v1 v2 2)
    let r := set_flag r .Zero (decide (sum = 0))
    let r := set_flag r .Sign (decide (sum &&& 128 ≠ 0))
    some { z1 with registers := r }

/-- `Z80::add` (`z80/mod.rs` lines 159-187).  The carry-chain increment
`v2 += 1` wraps (spec §9 note 1); `overflowing_add` on bytes is
`(v1 + v2) % 256` with overflow bit `255 < v1 + v2`. -/
def add (z : Z80) (dst src : Location8) (include_carry : Bool) : Option Z80 :=
  match get_loc8 z dst with
  | none => none
  | some v1 =>
  match get_loc8 z src with
  | none => none
  | some v2a =>
  let v2 := if include_carry && get_flag z.registers .Carry
            then (v2a + 1) % 256 else v2a
  let sum := (v1 + v2) % 256
  let ov : Bool := decide (255 < v1 + v2)
  match set_loc8 z dst sum with
  | none => none
  | some z1 =>
    let r := set_flag z1.registers .Carry (decide (v1 &&& v2 &&& 64 ≠ 0))
    let r := set_flag r .AddSubtract false
    let r := set_flag r .ParityOverflow ov
    let r := set_flag r .HalfCarry (decide (v1 &&& v2 &&& 4 ≠ 0))
    let r := set_flag r .Zero (decide (sum = 0))
    let r := set_flag r .Sign (decide (sum &&& 128 ≠ 0))
    some { z1 with registers := r }

/-- Population count of the low 8 bits, for `u8::count_zeros`. -/
def popCount8 (v : Nat) : Nat :=
  (List.range 8).countP (fun i => v.testBit i)

/-- `Z80::parity_flags` (`z80/mod.rs` lines 426-434): P/V is set when
`val.count_zeros()` (on a byte: `8 - popCount8 val`) is even; Z and S
are set from the value. -/
def parity_flags (r : Registers) (val : Nat) : Registers :=
  let parity := decide ((8 - popCount8 val) % 2 = 0)
  let r := set_flag r .ParityOverflow parity
  let r := set_flag r .Zero (decide (val = 0))
  set_flag r .Sign (decide (val &&& 128 ≠ 0))

/-- `Z80::bool_op` (`z80/mod.rs` lines 189-208). -/
def bool_op (z : Z80) (src : Location8) (f : Nat → Nat → Nat) : Option Z80 :=
  match get_loc8 z ACC with
  | none => none
  | some v1 =>
  match get_loc8 z src with
  | none => none
  | some v2 =>
  let result := f v1 v2
  match set_loc8 z ACC result with
  | none => none
  | some z1 =>
    let r := set_flag z1.registers .Carry false
    let r := set_flag r .AddSubtract false
    let r := set_flag r .HalfCarry false
    some { z1 with registers := parity_flags r result }

/-- `Z80::complement` (`z80/mod.rs` lines 210-217): A is bitwise negated
(u8 not is xor with 255); H and N are set. -/
def complement (z : Z80) : Z80 :=
  let a := get_reg8 z.registers .A
  let r := set_reg8 z.registers .A (a ^^^ 255)
  let r := set_flag r .HalfCarry true
  { z with registers := set_flag r .AddSubtract true }

/-- `Z80::negate` (`z80/mod.rs` lines 219-237): the result is the low
byte of `(1 <<< 8) - A`. -/
def negate (z : Z80) : Z80 :=
  let a := get_reg8 z.registers .A
  let result := (256 - a) % 256
  let r := set_reg8 z.registers .A result
  let r := set_flag r .Sign (decide (result &&& 128 ≠ 0))
  let r := set_flag r .Zero (decide (result = 0))
  let r := set_flag r .HalfCarry (is_borrow 0 a 3)
  let r := set_flag r .ParityOverflow (decide (a = 128))
  let r := set_flag r .AddSubtract true
  { z with registers := set_flag r .Carry (decide (a ≠ 0)) }

/-- `Z80::toggle_carry` (`z80/mod.rs` lines 239-244): CCF flips C and
clears N.  No other flag is written. -/
def toggle_carry (z : Z80) : Z80 :=
  let carry := get_flag z.registers .Carry
  let r := set_flag z.registers .Carry (!carry)
  { z with registers := set_flag r .AddSubtract false }

/-- `Z80::set_carry` (`z80/mod.rs` lines 246-251): SCF sets C, clears N
and H. -/
def set_carry (z : Z80) : Z80 :=
  let r := set_flag z.registers .Carry true
  let r := set_flag r .AddSubtract false
  { z with registers := set_flag r .HalfCarry false }

/-- `Z80::rotate_left` (`z80/mod.rs` lines 253-266): `val.rotate_left(1)`
on a byte is `(val * 2 + val / 128) % 256`; C is taken from bit 7 of
the rotated result. -/
def rotate_left (z : Z80) (loc : Location8) (set_parity : Bool) : Option Z80 :=
  match get_loc8 z loc with
  | none => none
  | some val =>
  let result := (val * 2 + val / 128) % 256
  match set_loc8 z loc result with
  | none => none
  | some z1 =>
    let r := set_flag z1.registers .Carry (decide (result &&& 128 ≠ 0))
    let r := set_flag r .HalfCarry false
    let r := set_flag r .AddSubtract false
    some { z1 with registers := if set_parity then parity_flags r result else r }

/-- `Z80::rotate_left_thru_acc` (`z80/mod.rs` lines 268-286): shift left,
insert the old carry into bit 0; C is taken from bit 7 of the original. -/
def rotate_left_thru_acc (z : Z80) (loc : Location8) (set_parity : Bool) :
    Option Z80 :=
  match get_loc8 z loc with
  | none => none
  | some val =>
  let carry := get_flag z.registers .Carry
  let result := val * 2 % 256 + (if carry then 1 else 0)
  match set_loc8 z loc result with
  | none => none
  | some z1 =>
    let r := set_flag z1.registers .Carry (decide (val &&& 128 ≠ 0))
    let r := set_flag r .HalfCarry false
    let r := set_flag r .AddSubtract false
    some { z1 with registers := if set_parity then parity_flags r result else r }

/-- `Z80::rotate_right` (`z80/mod.rs` lines 288-301): `val.rotate_right(1)`
on a byte is `val / 2 + val % 2 * 128`; C is taken from bit 0 of the
rotated result. -/
def rotate_right (z : Z80) (loc : Location8) (set_parity : Bool) : Option Z80 :=
  match get_loc8 z loc with
  | none => none
  | some val =>
  let result := val / 2 + val % 2 * 128
  match set_loc8 z loc result with
  | none => none
  | some z1 =>
    let r := set_flag z1.registers .Carry (decide (result &&& 1 ≠ 0))
    let r := set_flag r .HalfCarry false
    let r := set_flag r .AddSubtract false
    some { z1 with registers := if set_parity then parity_flags r result else r }

/-- `Z80::rotate_right_thru_acc` (`z80/mod.rs` lines 303-320). -/
def rotate_right_thru_acc (z : Z80) (loc : Location8) (set_parity : Bool) :
    Option Z80 :=
  match get_loc8 z loc with
  | none => none
  | some val =>
  let carry := get_flag z.registers .Carry
  let result := val / 2 + (if carry then 128 else 0)
  match set_loc8 z loc result with
  | none => none
  | some z1 =>
    let r := set_flag z1.registers .Carry (decide (val &&& 1 ≠ 0))
    let r := set_flag r .HalfCarry false
    let r := set_flag r .AddSubtract false
    some { z1 with registers := if set_parity then parity_flags r result else r }

/-- `Z80::shift_right` (`z80/mod.rs` lines 322-338): SRL/SRA. -/
def shift_right (z : Z80) (loc : Location8) (preserve_sign : Bool) :
    Option Z80 :=
  match get_loc8 z loc with
  | none => none
  | some val =>
  let carry := decide (val &&& 1 ≠ 0)
  let result := val / 2 + (if preserve_sign then val &&& 128 else 0)
  match set_loc8 z loc result with
  | none => none
  | some z1 =>
    let r := set_flag z1.registers .Carry carry
    let r := set_flag r .HalfCarry false
    let r := set_flag r .AddSubtract false
    some { z1 with registers := parity_flags r result }

/-- `Z80::shift_left` (`z80/mod.rs` lines 340-352): SLA. -/
def shift_left (z : Z80) (loc : Location8) : Option Z80 :=
  match get_loc8 z loc with
  | none => none
  | some val =>
  let carry := decide (val &&& 128 ≠ 0)
  let result := val * 2 % 256
  match set_loc8 z loc result with
  | none => none
  | some z1 =>
    let r := set_flag z1.registers .Carry carry
    let r := set_flag r .HalfCarry false
    let r := set_flag r .AddSubtract false
    some { z1 with registers := parity_flags r result }

/-- `Z80::rotate_nibble_left` (`z80/mod.rs` lines 354-368): RLD. -/
def rotate_nibble_left (z : Z80) : Option Z80 :=
  match get_loc8 z ACC with
  | none => none
  | some acc =>
  match get_loc8 z HL_INDIRECT with
  | none => none
  | some hl =>
  let acc2 := (acc &&& 240) ||| (hl / 16)
  let hl2 := (hl * 16 % 256) ||| (acc &&& 15)
  match set_loc8 z ACC acc2 with
  | none => none
  | some z1 =>
  match set_loc8 z1 HL_INDIRECT hl2 with
  | none => none
  | some z2 =>
    let r := set_flag z2.registers .HalfCarry false
    let r := set_flag r .AddSubtract false
    some { z2 with registers := parity_flags r acc2 }

/-- `Z80::rotate_nibble_right` (`z80/mod.rs` lines 370-384): RRD. -/
def rotate_nibble_right (z : Z80) : Option Z80 :=
  match get_loc8 z ACC with
  | none => none
  | some acc =>
  match get_loc8 z HL_INDIRECT with
  | none => none
  | some hl =>
  let acc2 := (acc &&& 240) ||| (hl &&& 15)
  let hl2 := (hl / 16) ||| (acc &&& 15) * 16
  match set_loc8 z ACC acc2 with
  | none => none
  | some z1 =>
  match set_loc8 z1 HL_INDIRECT hl2 with
  | none => none
  | some z2 =>
    let r := set_flag z2.registers .HalfCarry false
    let r := set_flag r .AddSubtract false
    some { z2 with registers := parity_flags r acc2 }

/-- `Z80::get_bit` (`z80/mod.rs` lines 386-394): BIT.  The assertion
`bit < 8` fails (panics) otherwise. -/
def get_bit (z : Z80) (bit : Nat) (loc : Location8) : Option Z80 :=
  if bit < 8 then
    match get_loc8 z loc with
    | none => none
    | some val =>
      let r := set_flag z.registers .Zero (decide (val &&& 1 <<< bit = 0))
      let r := set_flag r .HalfCarry true
      some { z with registers := set_flag r .AddSubtract false }
  else none

/-- `Z80::set_bit` (`z80/mod.rs` lines 396-400): SET. -/
def set_bit (z : Z80) (bit : Nat) (loc : Location8) : Option Z80 :=
  if bit < 8 then
    match get_loc8 z loc with
    | none => none
    | some val => set_loc8 z loc (val ||| 1 <<< bit)
  else none

/-- `Z80::reset_bit` (`z80/mod.rs` lines 402-406): RES.  The u8
complement of the mask is `255 ^^^ (1 <<< bit)`. -/
def reset_bit (z : Z80) (bit : Nat) (loc : Location8) : Option Z80 :=
  if bit < 8 then
    match get_loc8 z loc with
    | none => none
    | some val => set_loc8 z loc (val &&& (255 ^^^ 1 <<< bit))
  else none

/-- `Z80::read_in` (`z80/mod.rs` lines 408-415): IN.  An unmapped input
port is a panic (`none`). -/
def read_in (z : Z80) (peripheral loc : Location8) : Option Z80 :=
  match get_loc8 z peripheral with
  | none => none
  | some port =>
  match z.inputDevices port with
  | none => none
  | some byte => set_loc8 z loc (byte % 256)

/-- `Z80::write_out` (`z80/mod.rs` lines 417-424): OUT.  An unmapped
output port is a panic (`none`); the byte goes to the device, outside
the modelled state. -/
def write_out (z : Z80) (peripheral loc : Location8) : Option Z80 :=
  match get_loc8 z peripheral with
  | none => none
  | some port =>
  match get_loc8 z loc with
  | none => none
  | some _ =>
  if z.outputDevices port then some z else none

/-- `Z80::eval_cond` (`z80/mod.rs` lines 492-511). -/
def eval_cond (z : Z80) : JumpConditional → Bool
  | .Unconditional => true
  | .Carry => get_flag z.registers .Carry
  | .NoCarry => !get_flag z.registers .Carry
  | .Zero => get_flag z.registers .Zero
  | .NonZero => !get_flag z.registers .Zero
  | .ParityEven => get_flag z.registers .ParityOverflow
  | .ParityOdd => !get_flag z.registers .ParityOverflow
  | .SignNegative => get_flag z.registers .Sign
  | .SignPositive => !get_flag z.registers .Sign

/-- Reduction of an `i8` immediate to its canonical value in
`[-128, 127]` (the Rust field has type `i8`). -/
def i8val (o : Int) : Int := (o + 128) % 256 - 128

/-- Sign extension `offset as u16` of an `i8`. -/
def i8_as_u16 (o : Int) : Nat := ((i8val o) % 65536).toNat

/-- `Z80::pc_offset` (`z80/mod.rs` lines 521-526):
`pc.wrapping_add(offset as u16).wrapping_add(2)`. -/
def pc_offset (z : Z80) (offset : Int) : Nat :=
  ((get_pc z.registers + i8_as_u16 offset) % 65536 + 2) % 65536

/-- `Z80::jump_cond` (`z80/mod.rs` lines 513-519), fused with the panic
layer: a successful JP yields the state unchanged and the optional
target. -/
def jump_cond (z : Z80) (cond : JumpConditional) (loc : Location16) :
    Option (Z80 × Option Nat) :=
  if eval_cond z cond then
    match get_loc16 z loc with
    | none => none
    | some t => some (z, some t)
  else some (z, none)

/-- `Z80::jump_relative` (`z80/mod.rs` lines 528-535). -/
def jump_relative (z : Z80) (cond : JumpConditional) (offset : Int) :
    Z80 × Option Nat :=
  if eval_cond z cond then (z, some (pc_offset z offset)) else (z, none)

/-- `Z80::decrement_jump` (`z80/mod.rs` lines 537-546): DJNZ decrements B
(wrapping) and jumps when the new B is non-zero. -/
def decrement_jump (z : Z80) (offset : Int) : Z80 × Option Nat :=
  let b := (get_reg8 z.registers .B + 255) % 256
  let z1 : Z80 := { z with registers := set_reg8 z.registers .B b }
  if b ≠ 0 then (z1, some (pc_offset z1 offset)) else (z1, none)

/-- `Z80::push_val` (`z80/mod.rs` lines 548-554): SP is decremented by 2
(wrapping), then the word is stored at the new SP. -/
def push_val (z : Z80) (val : Nat) : Option Z80 :=
  let r := set_reg16 z.registers .SP
    ((get_reg16 z.registers .SP + 65534) % 65536)
  set_loc16 { z with registers := r } (.RegIndirect .SP) val

/-- `Z80::push` (`z80/mod.rs` lines 556-558). -/
def push (z : Z80) (src : Location16) : Option Z80 :=
  match get_loc16 z src with
  | none => none
  | some v => push_val z v

/-- `Z80::pop_val` (`z80/mod.rs` lines 560-567): read the word at SP,
then increment SP by 2 (wrapping). -/
def pop_val (z : Z80) : Option (Z80 × Nat) :=
  match get_loc16 z (.RegIndirect .SP) with
  | none => none
  | some n =>
    let r := set_reg16 z.registers .SP
      ((get_reg16 z.registers .SP + 2) % 65536)
    some ({ z with registers := r }, n)

/-- `Z80::pop` (`z80/mod.rs` lines 569-572). -/
def pop (z : Z80) (dst : Location16) : Option Z80 :=
  match pop_val z with
  | none => none
  | some (z1, val) => set_loc16 z1 dst val

/-- `Z80::call` (`z80/mod.rs` lines 574-581): a taken CALL pushes
`PC + 3` and jumps to the immediate address. -/
def call (z : Z80) (cond : JumpConditional) (loc : Nat) :
    Option (Z80 × Option Nat) :=
  if eval_cond z cond then
    match push_val z ((get_pc z.registers + 3) % 65536) with
    | none => none
    | some z1 => some (z1, some (loc % 65536))
  else some (z, none)

/-- `Z80::return_` (`z80/mod.rs` lines 583-589): a taken RET pops the
return address. -/
def return_ (z : Z80) (cond : JumpConditional) : Option (Z80 × Option Nat) :=
  if eval_cond z cond then
    match pop_val z with
    | none => none
    | some (z1, n) => some (z1, some n)
  else some (z, none)

/-- Lift a state-only helper into the executor's result shape: the
instruction produced no jump target (`None` in the source). -/
def noJump (o : Option Z80) : Option (Z80 × Option Nat) :=
  o.map (fun z => (z, none))

/-- `Z80::exec_with_offset` (`z80/mod.rs` lines 55-114): dispatch on the
decoded instruction; control-flow arms return their optional target,
every other arm returns `None` (here `(state, none)`). -/
def exec_with_offset (z : Z80) : Op → Option (Z80 × Option Nat)
  | .LD8 dst src => noJump (match get_loc8 z src with
    | none => none
    | some v => set_loc8 z dst v)
  | .LD16 dst src => noJump (match get_loc16 z src with
    | none => none
    | some v => set_loc16 z dst v)
  | .PUSH src => noJump (push z src)
  | .POP dst => noJump (pop z dst)
  | .ADD8 dst src => noJump (add z dst src false)
  | .ADC dst src => noJump (add z dst src true)
  | .INC dst => noJump (add z dst ONE_IMM false)
  | .SUB8 dst src => noJump (subtract z dst src false true)
  | .SBC dst src => noJump (subtract z dst src true true)
  | .DEC dst => noJump (subtract z dst ONE_IMM false true)
  | .CP src => noJump (subtract z ACC src false false)
  | .AND src => noJump (bool_op z src (fun d s => d &&& s))
  | .OR src => noJump (bool_op z src (fun d s => d ||| s))
  | .XOR src => noJump (bool_op z src (fun d s => d ^^^ s))
  | .DAA => none
  | .CPL => noJump (some (complement z))
  | .NEG => noJump (some (negate z))
  | .CCF => noJump (some (toggle_carry z))
  | .SCF => noJump (some (set_carry z))
  | .NOP => noJump (some z)
  | .HALT => noJump (some { z with isHalted := true })
  | .RLCA => noJump (rotate_left z ACC false)
  | .RLA => noJump (rotate_left_thru_acc z ACC false)
  | .RRCA => noJump (rotate_right z ACC false)
  | .RRA => noJump (rotate_right_thru_acc z ACC false)
  | .RLC loc => noJump (rotate_left z loc true)
  | .RL loc => noJump (rotate_left_thru_acc z loc true)
  | .RRC loc => noJump (rotate_right z loc true)
  | .RR loc => noJump (rotate_right_thru_acc z loc true)
  | .SRL loc => noJump (shift_right z loc false)
  | .SLA loc => noJump (shift_left z loc)
  | .SRA loc => noJump (shift_right z loc true)
  | .RLD => noJump (rotate_nibble_left z)
  | .RRD => noJump (rotate_nibble_right z)
  | .BIT b loc => noJump (get_bit z b loc)
  | .SET b loc => noJump (set_bit z b loc)
  | .RES b loc => noJump (reset_bit z b loc)
  | .IN dst port => noJump (read_in z port dst)
  | .OUT src port => noJump (write_out z port src)
  | .JP cond addr => jump_cond z cond addr
  | .JR cond offset => some (jump_relative z cond offset)
  | .DJNZ offset => some (decrement_jump z offset)
  | .CALL cond addr => call z cond addr
  | .RET cond => return_ z cond

/-- The public `Z80::exec` (`z80/mod.rs` lines 49-53): runs
`exec_with_offset` and discards the returned offset. -/
def exec (z : Z80) (op : Op) : Option Z80 :=
  (exec_with_offset z op).map Prod.fst

/-- The `Default` instance for `Z80` (`z80/mod.rs` lines 29-42):
everything zeroed except SP, which starts at `MEMORY_SIZE`; no devices
installed. -/
def z80_default : Z80 :=
  { registers :=
      { a := 0, f := 0, b := 0, c := 0, d := 0, e := 0, h := 0, l := 0
        ap := 0, fp := 0, bp := 0, cp := 0, dp := 0, ep := 0, hp := 0, lp := 0
        pc := 0, sp := MEMORY_SIZE }
    memory := ⟨fun _ => 0⟩
    isHalted := false
    inputDevices := fun _ => none
    outputDevices := fun _ => false }

/-- The specified optional-next-PC contract of the executor, written from
the spec's words (§4.4.8, §6.1, §8 property 9): a control-flow
instruction that takes its jump yields `some` of the expected target
(JP: the word read from the address location; JR and DJNZ: PC + 2 +
offset with 16-bit wrap-around, DJNZ taken exactly when the
decremented B is non-zero; CALL: the immediate address; RET: the word
popped at SP); every other case yields `none`. -/
def spec_jump_target (z : Z80) : Op → Option Nat
  | .JP cond addr => if eval_cond z cond then get_loc16 z addr else none
  | .JR cond offset =>
    if eval_cond z cond
    then some ((get_pc z.registers + 2 + i8_as_u16 offset) % 65536) else none
  | .DJNZ offset =>
    if (get_reg8 z.registers .B + 255) % 256 ≠ 0
    then some ((get_pc z.registers + 2 + i8_as_u16 offset) % 65536) else none
  | .CALL cond addr => if eval_cond z cond then some (addr % 65536) else none
  | .RET cond =>
    if eval_cond z cond
    then mem_read16 z.memory (get_reg16 z.registers .SP) else none
  | _ => none

/-- The two's-complement reading of a byte, used to state the spec's
notion of signed overflow (§4.4.1). -/
def signed8 (v : Nat) : Int := if v % 256 < 128 then (v % 256 : Int) else (v % 256 : Int) - 256

/-- A default CPU whose accumulator holds `a`. -/
def stateA (a : Nat) : Z80 :=
  { z80_default with registers := { z80_default.registers with a := a } }

/-- A default CPU whose accumulator holds `a` and flag byte holds `f`. -/
def stateAF (a f : Nat) : Z80 :=
  { z80_default with registers := { z80_default.registers with a := a, f := f } }

/-- A default CPU whose HL pair holds 16384 = `MEMORY_SIZE`. -/
def stateHL16384 : Z80 :=
  { z80_default with registers := { z80_default.registers with h := 64, l := 0 } }

/-- A default CPU with registers BC = 0x1234, SP = 100, PC = 0x0100. -/
def statePushPop : Z80 :=
  { z80_default with registers :=
      { z80_default.registers with b := 18, c := 52, sp := 100, pc := 256 } }

/-- Projection used to observe an executor result: the written
accumulator together with the returned offset. -/
def obsA (p : Z80 × Option Nat) : Nat × Option Nat := (p.1.registers.a, p.2)

/-- Observation of the PUSH/POP round-trip of spec §8 property 8: set
the pair `p` to `v`, execute PUSH p, zero the pair, execute POP p, and
observe the pair's value and the raw SP register (both executions must
succeed and return no jump). -/
def push_pop_obs (z : Z80) (p : Reg16) (v : Nat) : Option (Nat × Nat) :=
  match exec_with_offset { z with registers := set_reg16 z.registers p v }
      (.PUSH (.Reg p)) with
  | some (zB, none) =>
    match exec_with_offset { zB with registers := set_reg16 zB.registers p 0 }
        (.POP (.Reg p)) with
    | some (zC, none) => some (get_reg16 zC.registers p, zC.registers.sp)
    | _ => none
  | _ => none

/- ### Helper lemmas -/

theorem set_flag_a (r : Registers) (fl : StatusFlag) (b : Bool) :
    (set_flag r fl b).a = r.a := by
  unfold set_flag; split <;> rfl

theorem set_flag_b (r : Registers) (fl : StatusFlag) (b : Bool) :
    (set_flag r fl b).b = r.b := by
  unfold set_flag; split <;> rfl

theorem set_flag_c (r : Registers) (fl : StatusFlag) (b : Bool) :
    (set_flag r fl b).c = r.c := by
  unfold set_flag; split <;> rfl

theorem set_flag_d (r : Registers) (fl : StatusFlag) (b : Bool) :
    (set_flag r fl b).d = r.d := by
  unfold set_flag; split <;> rfl

theorem set_flag_e (r : Registers) (fl : StatusFlag) (b : Bool) :
    (set_flag r fl b).e = r.e := by
  unfold set_flag; split <;> rfl

theorem set_flag_h (r : Registers) (fl : StatusFlag) (b : Bool) :
    (set_flag r fl b).h = r.h := by
  unfold set_flag; split <;> rfl

theorem set_flag_l (r : Registers) (fl : StatusFlag) (b : Bool) :
    (set_flag r fl b).l = r.l := by
  unfold set_flag; split <;> rfl

theorem set_flag_ap (r : Registers) (fl : StatusFlag) (b : Bool) :
    (set_flag r fl b).ap = r.ap := by
  unfold set_flag; split <;> rfl

theorem set_flag_fp (r : Registers) (fl : StatusFlag) (b : Bool) :
    (set_flag r fl b).fp = r.fp := by
  unfold set_flag; split <;> rfl

theorem set_flag_bp (r : Registers) (fl : StatusFlag) (b : Bool) :
    (set_flag r fl b).bp = r.bp := by
  unfold set_flag; split <;> rfl

theorem set_flag_cp (r : Registers) (fl : StatusFlag) (b : Bool) :
    (set_flag r fl b).cp = r.cp := by
  unfold set_flag; split <;> rfl

theorem set_flag_dp (r : Registers) (fl : StatusFlag) (b : Bool) :
    (set_flag r fl b).dp = r.dp := by
  unfold set_flag; split <;> rfl

theorem set_flag_ep (r : Registers) (fl : StatusFlag) (b : Bool) :
    (set_flag r fl b).ep = r.ep := by
  unfold set_flag; split <;> rfl

theorem set_flag_hp (r : Registers) (fl : StatusFlag) (b : Bool) :
    (set_flag r fl b).hp = r.hp := by
  unfold set_flag; split <;> rfl

theorem set_flag_lp (r : Registers) (fl : StatusFlag) (b : Bool) :
    (set_flag r fl b).lp = r.lp := by
  unfold set_flag; split <;> rfl

theorem set_flag_pc (r : Registers) (fl : StatusFlag) (b : Bool) :
    (set_flag r fl b).pc = r.pc := by
  unfold set_flag; split <;> rfl

theorem set_flag_sp (r : Registers) (fl : StatusFlag) (b : Bool) :
    (set_flag r fl b).sp = r.sp := by
  unfold set_flag; split <;> rfl

theorem flagBit_lt (fl : StatusFlag) : flagBit fl < 8 := by
  cases fl <;> decide

theorem flagBit_injective (fl fl2 : StatusFlag) (h : flagBit fl = flagBit fl2) :
    fl = fl2 := by
  cases fl <;> cases fl2 <;> first | rfl | exact absurd h (by decide)

theorem testBit_mod256 (x i : Nat) (h : i < 8) :
    (x % 256).testBit i = x.testBit i := by
  have h2 : (256 : Nat) = 2 ^ 8 := by norm_num
  rw [h2, Nat.testBit_mod_two_pow]
  simp [h]

theorem testBit_255 (i : Nat) (h : i < 8) : Nat.testBit 255 i = true := by
  have h2 : (255 : Nat) = 2 ^ 8 - 1 := by norm_num
  rw [h2, Nat.testBit_two_pow_sub_one]
  simp [h]

theorem get_flag_set_flag_self (r : Registers) (fl : StatusFlag) (b : Bool) :
    get_flag (set_flag r fl b) fl = b := by
  have hk : flagBit fl < 8 := flagBit_lt fl
  unfold get_flag set_flag
  cases b <;>
    simp [Nat.testBit_lor, Nat.testBit_land, Nat.testBit_xor,
      Nat.testBit_mod_two_pow, Nat.testBit_two_pow,
      Nat.testBit_two_pow_sub_one, testBit_mod256, testBit_255, hk]

theorem get_flag_set_flag_ne (r : Registers) (fl fl2 : StatusFlag) (b : Bool)
    (hne : fl ≠ fl2) : get_flag (set_flag r fl b) fl2 = get_flag r fl2 := by
  have hk : flagBit fl2 < 8 := flagBit_lt fl2
  have hb : flagBit fl ≠ flagBit fl2 := fun hh => hne (flagBit_injective _ _ hh)
  unfold get_flag set_flag
  cases b <;>
    simp [Nat.testBit_lor, Nat.testBit_land, Nat.testBit_xor,
      Nat.testBit_mod_two_pow, Nat.testBit_two_pow,
      Nat.testBit_two_pow_sub_one, testBit_mod256, testBit_255, hk, hb]

theorem noJump_eq {o : Option Z80} {z1 : Z80} {r : Option Nat}
    (h : noJump o = some (z1, r)) : o = some z1 ∧ r = none := by
  cases o with
  | none => simp [noJump] at h
  | some z =>
    simp only [noJump, Option.map_some', Option.some.injEq, Prod.mk.injEq] at h
    exact ⟨by rw [h.1], h.2.symm⟩

/- ### Claim theorems -/

/-- C2 counterexample: the claim fails as stated.  With HL = 16384 (a
valid 16-bit address value), the 8-bit read through `RegIndirect HL`
does not succeed at address 16384 mod 16384 = 0: it faults (`none`,
an out-of-bounds panic), because `get_loc8`/`set_loc8` index memory
directly without masking. -/
theorem c2_access_16384_faults :
    get_reg16 stateHL16384.registers .HL = 16384
    ∧ get_loc8 stateHL16384 (.RegIndirect .HL) = none
    ∧ (set_loc8 stateHL16384 (.RegIndirect .HL) 0).isSome = false := by
  refine ⟨by decide, by decide, by decide⟩

/-- C2 (corrected): operand accesses through `RegIndirect` and
`ImmediateIndirect` locations do not mask the address.  An access at
address `addr` succeeds exactly when `addr < MEMORY_SIZE` (for 16-bit
accesses, when `addr + 1 < MEMORY_SIZE` as well) and then touches
memory at `addr` itself; an access beyond the memory size faults
(out-of-bounds panic).  In particular every address in
`[0, MEMORY_SIZE)` is readable and writable. -/
theorem c2_operand_access_bounds (z : Z80) (addr v : Nat) :
    get_loc8 z (.ImmediateIndirect addr)
      = (if addr < MEMORY_SIZE then some (z.memory.memory addr % 256) else none)
    ∧ (set_loc8 z (.ImmediateIndirect addr) v).isSome = decide (addr < MEMORY_SIZE)
    ∧ get_loc16 z (.ImmediateIndirect addr)
      = (if addr + 1 < MEMORY_SIZE
         then some (z.memory.memory addr % 256
           + 256 * (z.memory.memory (addr + 1) % 256))
         else none)
    ∧ (set_loc16 z (.ImmediateIndirect addr) v).isSome
        = decide (addr + 1 < MEMORY_SIZE)
    ∧ get_loc8 z (.RegIndirect .HL)
      = (if get_reg16 z.registers .HL < MEMORY_SIZE
         then some (z.memory.memory (get_reg16 z.registers .HL) % 256)
         else none) := by
  refine ⟨rfl, ?_, ?_, ?_, rfl⟩
  · by_cases h : addr < MEMORY_SIZE <;> simp [set_loc8, mem_write8, h]
  · by_cases h1 : addr + 1 < MEMORY_SIZE
    · have h0 : addr < MEMORY_SIZE := by omega
      simp [get_loc16, mem_read16, mem_read8, h0, h1]
    · by_cases h0 : addr < MEMORY_SIZE <;>
        simp [get_loc16, mem_read16, mem_read8, h0, h1]
  · by_cases h1 : addr + 1 < MEMORY_SIZE
    · have h0 : addr < MEMORY_SIZE := by omega
      simp [set_loc16, mem_write16, mem_write8, h0, h1]
    · by_cases h0 : addr < MEMORY_SIZE <;>
        simp [set_loc16, mem_write16, mem_write8, h0, h1]

/-- C3 (code bug, at the failing input): executing ADD8 A, 0x80 with
A = 0x80 yields result 0 and leaves the carry flag clear, although
the unsigned sum 0x80 + 0x80 + 0 exceeds 0xFF, so the claimed rule
C = (v1 + v2 + c > 0xFF) requires C = 1.  The code derives C from
`(v1 & v2 & 0x40) != 0`, which spec §9 note 2 itself records as not
being the true carry-out. -/
theorem c3_add_carry_flag_bug :
    (exec_with_offset (stateA 128) (.ADD8 (.Reg .A) (.Immediate 128))).map
        (fun p => (p.1.registers.a, get_flag p.1.registers .Carry))
      = some (0, false)
    ∧ 255 < 128 + 128 := by
  refine ⟨by decide, by norm_num⟩

/-- C4 (code bug, at the failing input): executing SUB8 A, 0x20 with
A = 0x10 yields result 0xF0 and sets P/V, although the subtraction
0x10 - 0x20 does not overflow in signed two's-complement arithmetic
(16 - 32 = -16 lies within [-128, 127]), so the claimed rule
P/V = signed overflow requires P/V = 0 (as does the spec's concrete
scenario 2).  The code stores the unsigned borrow in P/V instead. -/
theorem c4_sub_overflow_flag_bug :
    (exec_with_offset (stateA 16) (.SUB8 (.Reg .A) (.Immediate 32))).map
        (fun p => (p.1.registers.a, get_flag p.1.registers .ParityOverflow))
      = some (240, true)
    ∧ -128 ≤ signed8 16 - signed8 32 ∧ signed8 16 - signed8 32 ≤ 127 := by
  refine ⟨by decide, by decide, by decide⟩

/-- C6 (code bug, at the failing input): executing RLC A with
A = 0b1000_0001 correctly leaves A = 0b0000_0011 but leaves the carry
flag clear, although the bit rotated out (the old bit 7) is 1, so the
claim (and the spec's concrete scenario 4) requires C = 1.  The code
derives C from bit 7 of the rotated result, which is the old bit 6. -/
theorem c6_rlc_carry_flag_bug :
    (exec_with_offset (stateA 129) (.RLC (.Reg .A))).map
        (fun p => (p.1.registers.a, get_flag p.1.registers .Carry))
      = some (3, false)
    ∧ Nat.testBit 129 7 = true := by
  refine ⟨by decide, by decide⟩

/-- C7 counterexample: the claim fails as stated.  Starting from a state
whose carry flag is set and half-carry flag is clear, CCF leaves the
half-carry flag clear instead of setting it to the previous carry. -/
theorem c7_ccf_h_not_old_carry :
    get_flag (stateAF 0 1).registers .Carry = true
    ∧ get_flag (stateAF 0 1).registers .HalfCarry = false
    ∧ (exec_with_offset (stateAF 0 1) .CCF).map
        (fun p => get_flag p.1.registers .HalfCarry) = some false := by
  refine ⟨by decide, by decide, by decide⟩

/-- C7 (corrected): for every starting state, CCF inverts the carry
flag and clears N, and leaves everything else unchanged: the
half-carry flag keeps its previous value (it does not receive the old
carry), the remaining flags, all registers, memory and the halt state
are untouched, and no jump is returned. -/
theorem c7_ccf_inverts_carry_only (z : Z80) :
    ∃ z1, exec_with_offset z .CCF = some (z1, none)
    ∧ get_flag z1.registers .Carry = !get_flag z.registers .Carry
    ∧ get_flag z1.registers .AddSubtract = false
    ∧ get_flag z1.registers .HalfCarry = get_flag z.registers .HalfCarry
    ∧ get_flag z1.registers .Zero = get_flag z.registers .Zero
    ∧ get_flag z1.registers .Sign = get_flag z.registers .Sign
    ∧ get_flag z1.registers .ParityOverflow = get_flag z.registers .ParityOverflow
    ∧ z1.registers.a = z.registers.a
    ∧ z1.registers.b = z.registers.b
    ∧ z1.registers.c = z.registers.c
    ∧ z1.registers.d = z.registers.d
    ∧ z1.registers.e = z.registers.e
    ∧ z1.registers.h = z.registers.h
    ∧ z1.registers.l = z.registers.l
    ∧ z1.registers.ap = z.registers.ap
    ∧ z1.registers.fp = z.registers.fp
    ∧ z1.registers.bp = z.registers.bp
    ∧ z1.registers.cp = z.registers.cp
    ∧ z1.registers.dp = z.registers.dp
    ∧ z1.registers.ep = z.registers.ep
    ∧ z1.registers.hp = z.registers.hp
    ∧ z1.registers.lp = z.registers.lp
    ∧ z1.registers.pc = z.registers.pc
    ∧ z1.registers.sp = z.registers.sp
    ∧ z1.memory = z.memory
    ∧ z1.isHalted = z.isHalted := by
  refine ⟨toggle_carry z, rfl, ?_⟩
  unfold toggle_carry
  simp [get_flag_set_flag_self, get_flag_set_flag_ne, set_flag_a, set_flag_b,
    set_flag_c, set_flag_d, set_flag_e, set_flag_h, set_flag_l, set_flag_ap,
    set_flag_fp, set_flag_bp, set_flag_cp, set_flag_dp, set_flag_ep,
    set_flag_hp, set_flag_lp, set_flag_pc, set_flag_sp]

theorem i8_as_u16_lt (o : Int) : i8_as_u16 o < 65536 := by
  unfold i8_as_u16 i8val
  have h1 : ((o + 128) % 256 - 128) % 65536 < 65536 :=
    Int.emod_lt_of_pos _ (by norm_num)
  have h2 : 0 ≤ ((o + 128) % 256 - 128) % 65536 :=
    Int.emod_nonneg _ (by norm_num)
  omega

theorem pc_offset_eq (z : Z80) (o : Int) :
    pc_offset z o = (get_pc z.registers + 2 + i8_as_u16 o) % 65536 := by
  have h1 : get_pc z.registers < 65536 := Nat.mod_lt _ (by norm_num)
  have h2 := i8_as_u16_lt o
  unfold pc_offset
  omega

/-- C1: whenever `exec_with_offset` completes on a decoded instruction,
the returned optional PC is exactly the specified jump contract:
`some target` precisely for a taken JP, JR, DJNZ, CALL or RET with the
expected target, and `none` for every non-control instruction and
every not-taken conditional variant. -/
theorem c1_exec_jump_contract (z : Z80) (op : Op) (z1 : Z80) (r : Option Nat)
    (h : exec_with_offset z op = some (z1, r)) : r = spec_jump_target z op := by
  cases op <;> simp only [exec_with_offset] at h <;>
    try (obtain ⟨-, rfl⟩ := noJump_eq h; rfl)
  case DAA => exact Option.noConfusion h
  case JP cond addr =>
    unfold jump_cond at h
    simp only [spec_jump_target]
    by_cases hc : eval_cond z cond
    · rw [if_pos hc] at h ⊢
      cases hl : get_loc16 z addr with
      | none => rw [hl] at h; exact Option.noConfusion h
      | some t =>
        rw [hl] at h
        simp only [Option.some.injEq, Prod.mk.injEq] at h
        exact h.2.symm
    · rw [if_neg hc] at h ⊢
      simp only [Option.some.injEq, Prod.mk.injEq] at h
      exact h.2.symm
  case JR cond offset =>
    unfold jump_relative at h
    simp only [spec_jump_target]
    by_cases hc : eval_cond z cond
    · rw [if_pos hc] at h ⊢
      simp only [Option.some.injEq, Prod.mk.injEq] at h
      rw [← h.2, pc_offset_eq]
    · rw [if_neg hc] at h ⊢
      simp only [Option.some.injEq, Prod.mk.injEq] at h
      exact h.2.symm
  case DJNZ offset =>
    simp only [decrement_jump] at h
    simp only [spec_jump_target]
    by_cases hb : (get_reg8 z.registers .B + 255) % 256 ≠ 0
    · rw [if_pos hb] at h ⊢
      simp only [Option.some.injEq, Prod.mk.injEq] at h
      rw [← h.2, pc_offset_eq]
      simp [get_pc, set_reg8]
    · rw [if_neg hb] at h ⊢
      simp only [Option.some.injEq, Prod.mk.injEq] at h
      exact h.2.symm
  case CALL cond addr =>
    unfold call at h
    simp only [spec_jump_target]
    by_cases hc : eval_cond z cond
    · rw [if_pos hc] at h ⊢
      cases hp : push_val z ((get_pc z.registers + 3) % 65536) with
      | none => rw [hp] at h; exact Option.noConfusion h
      | some z2 =>
        rw [hp] at h
        simp only [Option.some.injEq, Prod.mk.injEq] at h
        exact h.2.symm
    · rw [if_neg hc] at h ⊢
      simp only [Option.some.injEq, Prod.mk.injEq] at h
      exact h.2.symm
  case RET cond =>
    unfold return_ pop_val at h
    simp only [spec_jump_target]
    rw [show get_loc16 z (.RegIndirect .SP)
        = mem_read16 z.memory (get_reg16 z.registers .SP) from rfl] at h
    by_cases hc : eval_cond z cond
    · rw [if_pos hc] at h ⊢
      cases hm : mem_read16 z.memory (get_reg16 z.registers .SP) with
      | none => rw [hm] at h; exact Option.noConfusion h
      | some n =>
        rw [hm] at h
        simp only [Option.some.injEq, Prod.mk.injEq] at h
        exact h.2.symm
    · rw [if_neg hc] at h ⊢
      simp only [Option.some.injEq, Prod.mk.injEq] at h
      exact h.2.symm

/-- C1 witness: an unconditional JP to the immediate address 0x1234
returns that address as the new PC, as the contract demands. -/
theorem c1_exec_jump_contract_witness :
    (some 4660 : Option Nat)
      = spec_jump_target z80_default (.JP .Unconditional (.Immediate 4660)) :=
  c1_exec_jump_contract z80_default _ z80_default (some 4660) rfl

/-- C5: for every state and every byte operand, ADC writes
`(v1 + v2 + carry-in) mod 256` to the accumulator and SBC writes
`(v1 - v2 - borrow-in) mod 256` (expressed with an added multiple of
256), with no jump returned; the carry-chain wrap at `v2 = 0xFF` with
carry set (spec §9 note 1) does not change the stored result. -/
theorem c5_adc_sbc_mod256 (z : Z80) (v2 : Nat) (hv : v2 < 256) :
    (exec_with_offset z (.ADC (.Reg .A) (.Immediate v2))).map obsA
      = some ((z.registers.a % 256 + v2
          + (if get_flag z.registers .Carry then 1 else 0)) % 256, none)
    ∧ (exec_with_offset z (.SBC (.Reg .A) (.Immediate v2))).map obsA
      = some ((z.registers.a % 256 + 512 - v2
          - (if get_flag z.registers .Carry then 1 else 0)) % 256, none) := by
  have hv2 : v2 % 256 = v2 := Nat.mod_eq_of_lt hv
  constructor
  · simp only [exec_with_offset, add, get_loc8, get_reg8, noJump, set_loc8,
      set_reg8, hv2, Bool.true_and, obsA, Option.map_some']
    cases hc : get_flag z.registers .Carry <;>
      simp only [hc, if_true, if_false, Bool.false_eq_true, Bool.true_eq_false,
        ite_true, ite_false, Option.map_some', obsA, set_flag_a,
        Option.some.injEq, Prod.mk.injEq] <;>
      exact ⟨by omega, trivial⟩
  · simp only [exec_with_offset, subtract, get_loc8, get_reg8, noJump, set_loc8,
      set_reg8, hv2, Bool.true_and, obsA, Option.map_some']
    cases hc : get_flag z.registers .Carry <;>
      simp only [hc, if_true, if_false, Bool.false_eq_true, Bool.true_eq_false,
        ite_true, ite_false, Option.map_some', obsA, set_flag_a,
        Option.some.injEq, Prod.mk.injEq] <;>
      exact ⟨by omega, trivial⟩

/-- C5 witness: with A = 18, the carry flag set and operand 0xFF, ADC
stores (18 + 255 + 1) mod 256 = 18 and SBC stores
(18 - 255 - 1) mod 256 = 18. -/
theorem c5_adc_sbc_mod256_witness :
    (exec_with_offset (stateAF 18 1) (.ADC (.Reg .A) (.Immediate 255))).map obsA
      = some (18, none)
    ∧ (exec_with_offset (stateAF 18 1) (.SBC (.Reg .A) (.Immediate 255))).map obsA
      = some (18, none) := by
  obtain ⟨h1, h2⟩ := c5_adc_sbc_mod256 (stateAF 18 1) 255 (by norm_num)
  have hc : get_flag (stateAF 18 1).registers .Carry = true := by decide
  rw [hc] at h1 h2
  constructor
  · simpa [stateAF, z80_default] using h1
  · simpa [stateAF, z80_default] using h2

/-- C9: configuration errors are fatal, modelled as `none` (a panic):
writing to an `Immediate` location aborts for both widths (hence any
LD8 into an immediate location aborts), and IN or OUT whose resolved
port has no installed device aborts; no error value is returned. -/
theorem c9_fatal_errors :
    (∀ (z : Z80) (n v : Nat), set_loc8 z (.Immediate n) v = none)
    ∧ (∀ (z : Z80) (n v : Nat), set_loc16 z (.Immediate n) v = none)
    ∧ (∀ (z : Z80) (n : Nat) (src : Location8),
        exec_with_offset z (.LD8 (.Immediate n) src) = none)
    ∧ (∀ (z : Z80) (dst pl : Location8) (p : Nat),
        get_loc8 z pl = some p → z.inputDevices p = none →
        exec_with_offset z (.IN dst pl) = none)
    ∧ (∀ (z : Z80) (src pl : Location8) (p : Nat),
        get_loc8 z pl = some p → z.outputDevices p = false →
        exec_with_offset z (.OUT src pl) = none) := by
  refine ⟨fun z n v => rfl, fun z n v => rfl, ?_, ?_, ?_⟩
  · intro z n src
    unfold exec_with_offset
    cases hs : get_loc8 z src <;> simp [hs, noJump, set_loc8]
  · intro z dst pl p h1 h2
    unfold exec_with_offset
    simp [read_in, h1, h2, noJump]
  · intro z src pl p h1 h2
    unfold exec_with_offset
    cases hs : get_loc8 z src <;> simp [write_out, h1, h2, hs, noJump]

/-- C9 witness: on the default CPU (no devices installed), writing an
immediate location aborts, and IN or OUT on port 5 aborts. -/
theorem c9_fatal_errors_witness :
    set_loc8 z80_default (.Immediate 3) 7 = none
    ∧ exec_with_offset z80_default (.IN (.Reg .A) (.Immediate 5)) = none
    ∧ exec_with_offset z80_default (.OUT (.Reg .A) (.Immediate 5)) = none := by
  refine ⟨c9_fatal_errors.1 z80_default 3 7, ?_, ?_⟩
  · exact c9_fatal_errors.2.2.2.1 z80_default (.Reg .A) (.Immediate 5) 5 rfl rfl
  · exact c9_fatal_errors.2.2.2.2 z80_default (.Reg .A) (.Immediate 5) 5 rfl rfl

theorem set_loc8_isHalted {z : Z80} {loc : Location8} {v : Nat} {z1 : Z80}
    (h : set_loc8 z loc v = some z1) : z1.isHalted = z.isHalted := by
  unfold set_loc8 at h
  repeat' split at h
  all_goals first
  | exact Option.noConfusion h
  | (simp only [Option.some.injEq] at h; subst h; rfl)

theorem set_loc16_isHalted {z : Z80} {loc : Location16} {v : Nat} {z1 : Z80}
    (h : set_loc16 z loc v = some z1) : z1.isHalted = z.isHalted := by
  unfold set_loc16 at h
  repeat' split at h
  all_goals first
  | exact Option.noConfusion h
  | (simp only [Option.some.injEq] at h; subst h; rfl)

theorem add_isHalted {z : Z80} {dst src : Location8} {c : Bool} {z1 : Z80}
    (h : add z dst src c = some z1) : z1.isHalted = z.isHalted := by
  simp only [add] at h
  repeat' split at h
  all_goals first
  | exact Option.noConfusion h
  | (simp only [Option.some.injEq] at h; subst h;
     have hz2 := set_loc8_isHalted (by assumption); exact hz2)

theorem subtract_isHalted {z : Z80} {dst src : Location8} {c st : Bool}
    {z1 : Z80} (h : subtract z dst src c st = some z1) :
    z1.isHalted = z.isHalted := by
  cases st <;>
    simp only [subtract, Bool.false_eq_true, Bool.true_eq_false, if_true,
      if_false, ite_true, ite_false] at h <;>
    repeat' split at h
  all_goals first
  | exact Option.noConfusion h
  | (simp only [Option.some.injEq] at h; subst h; rfl)
  | (simp only [Option.some.injEq] at h; subst h;
     have hz2 := set_loc8_isHalted (by assumption); exact hz2)

theorem bool_op_isHalted {z : Z80} {src : Location8} {f : Nat → Nat → Nat}
    {z1 : Z80} (h : bool_op z src f = some z1) : z1.isHalted = z.isHalted := by
  simp only [bool_op] at h
  repeat' split at h
  all_goals first
  | exact Option.noConfusion h
  | (simp only [Option.some.injEq] at h; subst h;
     have hz2 := set_loc8_isHalted (by assumption); exact hz2)

theorem rotate_left_isHalted {z : Z80} {loc : Location8} {sp : Bool} {z1 : Z80}
    (h : rotate_left z loc sp = some z1) : z1.isHalted = z.isHalted := by
  simp only [rotate_left] at h
  repeat' split at h
  all_goals first
  | exact Option.noConfusion h
  | (simp only [Option.some.injEq] at h; subst h;
     have hz2 := set_loc8_isHalted (by assumption); exact hz2)

theorem rotate_left_thru_acc_isHalted {z : Z80} {loc : Location8} {sp : Bool}
    {z1 : Z80} (h : rotate_left_thru_acc z loc sp = some z1) :
    z1.isHalted = z.isHalted := by
  simp only [rotate_left_thru_acc] at h
  repeat' split at h
  all_goals first
  | exact Option.noConfusion h
  | (simp only [Option.some.injEq] at h; subst h;
     have hz2 := set_loc8_isHalted (by assumption); exact hz2)

theorem rotate_right_isHalted {z : Z80} {loc : Location8} {sp : Bool} {z1 : Z80}
    (h : rotate_right z loc sp = some z1) : z1.isHalted = z.isHalted := by
  simp only [rotate_right] at h
  repeat' split at h
  all_goals first
  | exact Option.noConfusion h
  | (simp only [Option.some.injEq] at h; subst h;
     have hz2 := set_loc8_isHalted (by assumption); exact hz2)

theorem rotate_right_thru_acc_isHalted {z : Z80} {loc : Location8} {sp : Bool}
    {z1 : Z80} (h : rotate_right_thru_acc z loc sp = some z1) :
    z1.isHalted = z.isHalted := by
  simp only [rotate_right_thru_acc] at h
  repeat' split at h
  all_goals first
  | exact Option.noConfusion h
  | (simp only [Option.some.injEq] at h; subst h;
     have hz2 := set_loc8_isHalted (by assumption); exact hz2)

theorem shift_right_isHalted {z : Z80} {loc : Location8} {ps : Bool} {z1 : Z80}
    (h : shift_right z loc ps = some z1) : z1.isHalted = z.isHalted := by
  simp only [shift_right] at h
  repeat' split at h
  all_goals first
  | exact Option.noConfusion h
  | (simp only [Option.some.injEq] at h; subst h;
     have hz2 := set_loc8_isHalted (by assumption); exact hz2)

theorem shift_left_isHalted {z : Z80} {loc : Location8} {z1 : Z80}
    (h : shift_left z loc = some z1) : z1.isHalted = z.isHalted := by
  simp only [shift_left] at h
  repeat' split at h
  all_goals first
  | exact Option.noConfusion h
  | (simp only [Option.some.injEq] at h; subst h;
     have hz2 := set_loc8_isHalted (by assumption); exact hz2)

theorem rotate_nibble_left_isHalted {z : Z80} {z1 : Z80}
    (h : rotate_nibble_left z = some z1) : z1.isHalted = z.isHalted := by
  simp only [rotate_nibble_left] at h
  repeat' split at h
  all_goals first
  | exact Option.noConfusion h
  | (simp only [Option.some.injEq] at h; subst h;
     have h1 := @set_loc8_isHalted z _ _ _ (by assumption);
     have h2 := set_loc8_isHalted (by assumption);
     exact h2.trans h1)

theorem rotate_nibble_right_isHalted {z : Z80} {z1 : Z80}
    (h : rotate_nibble_right z = some z1) : z1.isHalted = z.isHalted := by
  simp only [rotate_nibble_right] at h
  repeat' split at h
  all_goals first
  | exact Option.noConfusion h
  | (simp only [Option.some.injEq] at h; subst h;
     have h1 := @set_loc8_isHalted z _ _ _ (by assumption);
     have h2 := set_loc8_isHalted (by assumption);
     exact h2.trans h1)

theorem get_bit_isHalted {z : Z80} {b : Nat} {loc : Location8} {z1 : Z80}
    (h : get_bit z b loc = some z1) : z1.isHalted = z.isHalted := by
  simp only [get_bit] at h
  repeat' split at h
  all_goals first
  | exact Option.noConfusion h
  | (simp only [Option.some.injEq] at h; subst h; rfl)

theorem set_bit_isHalted {z : Z80} {b : Nat} {loc : Location8} {z1 : Z80}
    (h : set_bit z b loc = some z1) : z1.isHalted = z.isHalted := by
  simp only [set_bit] at h
  repeat' split at h
  all_goals first
  | exact Option.noConfusion h
  | exact set_loc8_isHalted h

theorem reset_bit_isHalted {z : Z80} {b : Nat} {loc : Location8} {z1 : Z80}
    (h : reset_bit z b loc = some z1) : z1.isHalted = z.isHalted := by
  simp only [reset_bit] at h
  repeat' split at h
  all_goals first
  | exact Option.noConfusion h
  | exact set_loc8_isHalted h

theorem read_in_isHalted {z : Z80} {pl loc : Location8} {z1 : Z80}
    (h : read_in z pl loc = some z1) : z1.isHalted = z.isHalted := by
  simp only [read_in] at h
  repeat' split at h
  all_goals first
  | exact Option.noConfusion h
  | exact set_loc8_isHalted h

theorem write_out_isHalted {z : Z80} {pl loc : Location8} {z1 : Z80}
    (h : write_out z pl loc = some z1) : z1.isHalted = z.isHalted := by
  simp only [write_out] at h
  repeat' split at h
  all_goals first
  | exact Option.noConfusion h
  | (simp only [Option.some.injEq] at h; subst h; rfl)

theorem push_val_isHalted {z : Z80} {v : Nat} {z1 : Z80}
    (h : push_val z v = some z1) : z1.isHalted = z.isHalted := by
  simp only [push_val] at h
  have h2 := set_loc16_isHalted h
  exact h2

theorem push_isHalted {z : Z80} {src : Location16} {z1 : Z80}
    (h : push z src = some z1) : z1.isHalted = z.isHalted := by
  simp only [push] at h
  cases hg : get_loc16 z src with
  | none => rw [hg] at h; exact Option.noConfusion h
  | some v => rw [hg] at h; exact push_val_isHalted h

theorem pop_val_isHalted {z : Z80} {z1 : Z80} {n : Nat}
    (h : pop_val z = some (z1, n)) : z1.isHalted = z.isHalted := by
  simp only [pop_val] at h
  repeat' split at h
  all_goals first
  | exact Option.noConfusion h
  | (simp only [Option.some.injEq, Prod.mk.injEq] at h; rw [← h.1])

theorem pop_isHalted {z : Z80} {dst : Location16} {z1 : Z80}
    (h : pop z dst = some z1) : z1.isHalted = z.isHalted := by
  simp only [pop] at h
  repeat' split at h
  all_goals first
  | exact Option.noConfusion h
  | exact (set_loc16_isHalted h).trans (pop_val_isHalted (by assumption))

set_option maxHeartbeats 1000000 in
set_option maxRecDepth 4096 in
/-- C10: the halt flag is a latch: whenever `exec_with_offset`
completes, the new halt state equals the old one for every instruction
other than HALT, and HALT sets it to true; no instruction ever resets
it, so a halted CPU stays halted under any executed instruction. -/
theorem c10_halt_latch (z : Z80) (op : Op) (z1 : Z80) (r : Option Nat)
    (h : exec_with_offset z op = some (z1, r)) :
    (op ≠ Op.HALT → z1.isHalted = z.isHalted)
    ∧ (op = Op.HALT → z1.isHalted = true) := by
  cases op <;> simp only [exec_with_offset] at h
  case DAA => exact Option.noConfusion h
  case HALT =>
    obtain ⟨hz, -⟩ := noJump_eq h
    simp only [Option.some.injEq] at hz
    exact ⟨fun hne => absurd rfl hne, fun _ => by rw [← hz]⟩
  case JP cond addr =>
    refine ⟨fun _ => ?_, fun habs => Op.noConfusion habs⟩
    unfold jump_cond at h
    repeat' split at h
    all_goals first
    | exact Option.noConfusion h
    | (simp only [Option.some.injEq, Prod.mk.injEq] at h; rw [← h.1])
  case JR cond offset =>
    refine ⟨fun _ => ?_, fun habs => Op.noConfusion habs⟩
    unfold jump_relative at h
    repeat' split at h
    all_goals simp only [Option.some.injEq, Prod.mk.injEq] at h
    all_goals rw [← h.1]
  case DJNZ offset =>
    refine ⟨fun _ => ?_, fun habs => Op.noConfusion habs⟩
    simp only [decrement_jump] at h
    repeat' split at h
    all_goals simp only [Option.some.injEq, Prod.mk.injEq] at h
    all_goals rw [← h.1]
  case CALL cond addr =>
    refine ⟨fun _ => ?_, fun habs => Op.noConfusion habs⟩
    unfold call at h
    repeat' split at h
    all_goals first
    | exact Option.noConfusion h
    | (simp only [Option.some.injEq, Prod.mk.injEq] at h;
       rw [← h.1]; exact push_val_isHalted (by assumption))
    | (simp only [Option.some.injEq, Prod.mk.injEq] at h; rw [← h.1])
  case RET cond =>
    refine ⟨fun _ => ?_, fun habs => Op.noConfusion habs⟩
    unfold return_ at h
    repeat' split at h
    all_goals first
    | exact Option.noConfusion h
    | (simp only [Option.some.injEq, Prod.mk.injEq] at h;
       rw [← h.1]; exact pop_val_isHalted (by assumption))
    | (simp only [Option.some.injEq, Prod.mk.injEq] at h; rw [← h.1])
  all_goals refine ⟨fun _ => ?_, fun habs => Op.noConfusion habs⟩
  all_goals obtain ⟨hzz, -⟩ := noJump_eq h
  all_goals repeat' split at hzz
  all_goals first
  | exact set_loc8_isHalted hzz
  | exact set_loc16_isHalted hzz
  | exact add_isHalted hzz
  | exact subtract_isHalted hzz
  | exact bool_op_isHalted hzz
  | exact push_isHalted hzz
  | exact pop_isHalted hzz
  | exact rotate_left_isHalted hzz
  | exact rotate_left_thru_acc_isHalted hzz
  | exact rotate_right_isHalted hzz
  | exact rotate_right_thru_acc_isHalted hzz
  | exact shift_right_isHalted hzz
  | exact shift_left_isHalted hzz
  | exact rotate_nibble_left_isHalted hzz
  | exact rotate_nibble_right_isHalted hzz
  | exact get_bit_isHalted hzz
  | exact set_bit_isHalted hzz
  | exact reset_bit_isHalted hzz
  | exact read_in_isHalted hzz
  | exact write_out_isHalted hzz
  | (simp only [Option.some.injEq] at hzz; subst hzz; rfl)
  | exact Option.noConfusion hzz

/-- C10 witness: executing HALT on the default (running) CPU leaves the
machine halted, as the latch property demands at the HALT input. -/
theorem c10_halt_latch_witness :
    ({ z80_default with isHalted := true } : Z80).isHalted = true :=
  (c10_halt_latch z80_default .HALT { z80_default with isHalted := true }
    none rfl).2 rfl

theorem get_reg16_set_reg16_self (r : Registers) (p : Reg16) (v : Nat) :
    get_reg16 (set_reg16 r p v) p = v % 65536 := by
  cases p <;> simp [get_reg16, set_reg16] <;> omega

theorem set_reg16_sp_ne (r : Registers) (p : Reg16) (v : Nat)
    (h : p ≠ .SP) : (set_reg16 r p v).sp = r.sp := by
  cases p <;> first | rfl | exact absurd rfl h

theorem get_reg16_sp (r : Registers) : get_reg16 r .SP = r.sp % 65536 := rfl

theorem set_reg16_sp_self (r : Registers) (x : Nat) :
    (set_reg16 r .SP x).sp = x % 65536 := rfl

theorem mem_write16_read16 (m : Memory) (addr v : Nat)
    (h : addr + 1 < MEMORY_SIZE) (hv : v < 65536) :
    ∃ m2, mem_write16 m addr v = some m2 ∧ mem_read16 m2 addr = some v := by
  have h0 : addr < MEMORY_SIZE := by omega
  have hne : addr ≠ addr + 1 := by omega
  refine ⟨⟨fun x => if x = addr + 1 then v / 256 % 256 % 256
      else if x = addr then v % 256 % 256 else m.memory x⟩, ?_, ?_⟩
  · simp [mem_write16, mem_write8, h0, h]
  · simp [mem_read16, mem_read8, h0, h, hne]
    omega

set_option maxHeartbeats 1000000 in
/-- C8: for any 16-bit register pair `p` (not SP itself) and any 16-bit
value `v`, starting from a state whose SP (as a 16-bit value) lies in
[2, MEMORY_SIZE], the sequence set(p, v); PUSH p; set(p, 0); POP p
succeeds, leaves the pair holding `v` again, and restores SP to its
original 16-bit value. -/
theorem c8_push_pop_roundtrip (z : Z80) (p : Reg16) (v : Nat)
    (hp : p ≠ .SP) (hv : v < 65536)
    (hlo : 2 ≤ z.registers.sp % 65536)
    (hhi : z.registers.sp % 65536 ≤ MEMORY_SIZE) :
    push_pop_obs z p v = some (v, z.registers.sp % 65536) := by
  have hM : MEMORY_SIZE = 16384 := rfl
  have hslt : z.registers.sp % 65536 < 65536 := Nat.mod_lt _ (by norm_num)
  have hv2 : v % 65536 = v := Nat.mod_eq_of_lt hv
  have hcol : ((z.registers.sp % 65536 + 65534) % 65536) % 65536
      = (z.registers.sp % 65536 + 65534) % 65536 :=
    Nat.mod_eq_of_lt (Nat.mod_lt _ (by norm_num))
  have hsp2 : ∀ (rr : Registers) (vv : Nat), (set_reg16 rr p vv).sp = rr.sp :=
    fun rr vv => set_reg16_sp_ne rr p vv hp
  obtain ⟨m2, hw, hr⟩ := mem_write16_read16 z.memory
    ((z.registers.sp % 65536 + 65534) % 65536) v (by omega) hv
  have hPUSH : exec_with_offset
      { z with registers := set_reg16 z.registers p v } (.PUSH (.Reg p))
      = some ({ z with
          registers := set_reg16 (set_reg16 z.registers p v) .SP
            ((z.registers.sp % 65536 + 65534) % 65536),
          memory := m2 }, none) := by
    simp only [exec_with_offset, push, push_val, get_loc16, set_loc16, noJump,
      get_reg16_set_reg16_self, get_reg16_sp, set_reg16_sp_self, hsp2, hv2,
      hcol, hw, Option.map_some']
  have hPOP : exec_with_offset
      { z with
        registers := set_reg16 (set_reg16 (set_reg16 z.registers p v) .SP
          ((z.registers.sp % 65536 + 65534) % 65536)) p 0,
        memory := m2 } (.POP (.Reg p))
      = some ({ z with
          registers := set_reg16 (set_reg16 (set_reg16 (set_reg16 (set_reg16
            z.registers p v) .SP ((z.registers.sp % 65536 + 65534) % 65536))
            p 0) .SP (((z.registers.sp % 65536 + 65534) % 65536 + 2) % 65536))
            p v,
          memory := m2 }, none) := by
    simp only [exec_with_offset, pop, pop_val, get_loc16, set_loc16, noJump,
      get_reg16_set_reg16_self, get_reg16_sp, set_reg16_sp_self, hsp2, hv2,
      hcol, hr, Option.map_some']
  unfold push_pop_obs
  rw [hPUSH]
  simp only [hPOP, get_reg16_set_reg16_self, hv2, hsp2, set_reg16_sp_self,
    Option.some.injEq, Prod.mk.injEq]
  exact ⟨trivial, by omega⟩

/-- C8 witness: with SP = 100 and pair BC, pushing 0xABCD, zeroing BC
and popping restores BC = 0xABCD and SP = 100. -/
theorem c8_push_pop_roundtrip_witness :
    push_pop_obs statePushPop .BC 43981 = some (43981, 100) := by
  have h := c8_push_pop_roundtrip statePushPop .BC 43981 (by decide)
    (by norm_num) (by norm_num [statePushPop, z80_default])
    (by norm_num [statePushPop, z80_default, MEMORY_SIZE])
  simpa [statePushPop, z80_default] using h

end Zeerust
